import Mathlib

/-!
expressBookReviews: the session/token gate, the user directory and the book store.

A shallow embedding of `final_project/index.js`, `router/general.js` and
`router/auth_users.js`.

Conventions of the embedding.

* A request field that may be absent (`req.body.username`, `req.query.review`,
  `req.headers['authorization']`) is an `Option String`; `none` is JavaScript's
  `undefined`.  The test `!x` is `isFalsy x`: it holds for `undefined` and for `""`.
* The libraries `bcryptjs` and `jsonwebtoken` are not part of the repository.  They are
  records of functions (`Bcrypt`, `Jwt`); a call that may throw or reject returns `Except`.
  The clock (`Date.now()` in seconds) and bcrypt's random salt are explicit arguments.
* An `async` handler is suspended at its `await`.  `register` and `login` are a call that
  runs with no other call in between; `registerBegin`, `registerResume` and `Event` are the
  registrations that overlap at `await bcrypt.hash`.
* A plain JavaScript object is an association list of its own properties in enumeration
  order.  A property read `o[k]` that finds no own property continues along the prototype
  chain, so the names found on `Object.prototype` are part of the model (`JsEnv`).
-/

namespace BookReviews

/-! ## JavaScript basics -/

/-- The test `!x` on a string-or-undefined value: true for `undefined` and for `""`. -/
def isFalsy : Option String → Bool
  | none => true
  | some s => s == ""

/-- The pieces of `s.split(sep)` for a one-character separator, on the characters of `s`. -/
def jsSplit (sep : Char) : List Char → List (List Char)
  | [] => [[]]
  | c :: cs =>
    if c = sep then [] :: jsSplit sep cs
    else
      match jsSplit sep cs with
      | [] => [[c]]
      | w :: ws => (c :: w) :: ws

/-- The expression `authHeader.split(' ')[1]`. -/
def secondField (authHeader : String) : Option String :=
  ((jsSplit ' ' authHeader.data)[1]?).map String.mk

/-! ## Responses -/

/-- A stored review: `{ text, timestamp }`. -/
structure Review where
  text : String
  timestamp : String
deriving DecidableEq, Repr

/-- The review mapping of a book: a plain object keyed by username.  `own` lists the own
properties in insertion order.  `proto` is `none` while the object's prototype is
`Object.prototype` (as for every object written `{}`), and `some r` once an assignment to
the key `__proto__` has replaced the prototype by the review object `r`. -/
structure Reviews where
  own : List (String × Review)
  proto : Option Review
deriving DecidableEq, Repr

/-- A book record `{ author, title, reviews }`. -/
structure Book where
  author : String
  title : String
  reviews : Reviews
deriving DecidableEq, Repr

/-- The `books` object: own properties (id, book) in `for ... in` order. -/
abbrev Books := List (String × Book)

/-- What `res.json(...)` is given.  `builtin name` stands for the built-in object
`Object.prototype[name]` and `builtinReviews name` for its property `reviews`. -/
inductive Body where
  | message (message : String)
  | failure (message : String) (error : String)
  | loggedIn (message : String) (accessToken : String)
  | book (b : Book)
  | bookList (bs : List Book)
  | allBooks (bs : Books)
  | reviews (r : Reviews)
  | reviewSaved (message : String) (review : Review)
  | builtin (name : String)
  | builtinReviews (name : String)
deriving DecidableEq, Repr

/-- The reply `res.status(status).json(body)`. -/
structure Response where
  status : Nat
  body : Body
deriving DecidableEq, Repr

/-! ## Libraries -/

/-- The decoded payload that `jwt.verify` hands to its callback. -/
structure Claims where
  username : Option String
  iat : Nat
  exp : Nat
deriving DecidableEq, Repr

/-- The two calls made on `jsonwebtoken`.  `sign username secret expiresIn now` is
`jwt.sign({ username }, secret, { expiresIn })` at clock `now` (seconds);
`verify token secret now` is `jwt.verify(token, secret, cb)`: `.error` is `cb(err)`. -/
structure Jwt where
  sign : String → String → Nat → Nat → Except String String
  verify : String → String → Nat → Except String Claims

/-- The two calls made on `bcryptjs`.  `hash password rounds salt` is
`bcrypt.hash(password, rounds)` drawing the random salt `salt`; `compare password stored`
is `bcrypt.compare(password, stored)`. -/
structure Bcrypt where
  hash : String → Nat → String → Except String String
  compare : String → String → Except String Bool

/-- The constant `JWT_SECRET` of `index.js` and `auth_users.js`. -/
def JWT_SECRET : String :=
  "your_super_secret_key_for_jwt_auth_replace_me_with_a_long_random_string"

/-! ## Session and gate (`index.js`) -/

/-- The object stored as `req.session.authorization`. -/
structure Authorization where
  accessToken : Option String
  username : String
deriving DecidableEq, Repr

/-- The fields of `req.session` the program touches; `authorization = none` is a session
whose `authorization` is `undefined` or `null`, `authenticated = false` one that never set
the flag. -/
structure Session where
  authorization : Option Authorization
  authenticated : Bool
  username : Option String
deriving DecidableEq, Repr

/-- The parts of the request the gate reads and writes. -/
structure Request where
  session : Session
  authHeader : Option String
  user : Option Claims
deriving DecidableEq, Repr

/-- How the gate leaves the request: `next()` or a reply. -/
inductive Outcome where
  | next
  | respond (r : Response)
deriving DecidableEq, Repr

/-- The token the gate holds at line 46 of `index.js`, inside the branch
`if (req.session.authorization)`: the session's `accessToken`, or when that is falsy
`authHeader && authHeader.split(' ')[1]`. -/
def gateToken (a : Authorization) (authHeader : Option String) : Option String :=
  if isFalsy a.accessToken then
    match authHeader with
    | none => none
    | some h => if h == "" then some "" else secondField h
  else a.accessToken

/-- The middleware `auth` mounted on `/customer/auth/*`, run at clock `now`. -/
def auth (jwt : Jwt) (now : Nat) (req : Request) : Request × Outcome :=
  match req.session.authorization with
  | some a =>
    match gateToken a req.authHeader with
    | some token =>
      if token == "" then
        (req, .respond ⟨401, .message "No authentication token provided. Unauthorized."⟩)
      else
        match jwt.verify token JWT_SECRET now with
        | .error _ =>
          ({ req with session := { req.session with authorization := none } },
            .respond ⟨403, .message "Authentication token is invalid or expired. Forbidden."⟩)
        | .ok user =>
          ({ req with
              user := some user
              session := { req.session with authenticated := true, username := user.username } },
            .next)
    | none =>
      (req, .respond ⟨401, .message "No authentication token provided. Unauthorized."⟩)
  | none =>
    (req, .respond ⟨401, .message "User not logged in. Authentication required."⟩)

/-- The token the gate goes on to verify, if it finds one: `none` when the session has no
`authorization` object or neither place yields a truthy token. -/
def credential (req : Request) : Option String :=
  match req.session.authorization with
  | none => none
  | some a =>
    match gateToken a req.authHeader with
    | none => none
    | some token => if token == "" then none else some token

/-! ## User directory (`general.js`, `auth_users.js`) -/

/-- An element of the array `users`: `{ username, password }`, the password hashed. -/
structure User where
  username : String
  password : String
deriving DecidableEq, Repr

/-- The helper `doesExist` of `general.js`. -/
def doesExist (users : List User) (username : String) : Bool :=
  let userswithsamename := users.filter (fun user => user.username == username)
  if userswithsamename.length > 0 then true else false

/-- The helper `isValid` of `auth_users.js`. -/
def isValid (users : List User) (username : String) : Bool :=
  users.any (fun user => user.username == username)

/-- The handler of `POST /register`; `salt` is the salt `bcrypt.hash` draws.  Returns the
array `users` after the call and the reply. -/
def register (bc : Bcrypt) (users : List User) (username password : Option String)
    (salt : String) : List User × Response :=
  if isFalsy username || isFalsy password then
    (users, ⟨400, .message "Unable to register user. Username and password are required."⟩)
  else
    let name := username.getD ""
    if doesExist users name then
      (users, ⟨409, .message "User already exists!"⟩)
    else
      match bc.hash (password.getD "") 10 salt with
      | .ok hashedPassword =>
        (users ++ [⟨name, hashedPassword⟩],
          ⟨200, .message "User successfully registered. You can now login."⟩)
      | .error e => (users, ⟨500, .failure "Error during user registration." e⟩)

/-- The handler of `POST /customer/login`, run at clock `now` (seconds).  Returns
`req.session` after the call and the reply. -/
def login (bc : Bcrypt) (jwt : Jwt) (users : List User) (session : Session)
    (username password : Option String) (now : Nat) : Session × Response :=
  if isFalsy username || isFalsy password then
    (session, ⟨400, .message "Username and password are required for login."⟩)
  else
    match users.find? (fun u => u.username == username.getD "") with
    | none => (session, ⟨401, .message "Invalid username or password."⟩)
    | some user =>
      match bc.compare (password.getD "") user.password with
      | .error e => (session, ⟨500, .failure "Error during login." e⟩)
      | .ok false => (session, ⟨401, .message "Invalid username or password."⟩)
      | .ok true =>
        match jwt.sign user.username JWT_SECRET 3600 now with
        | .error e => (session, ⟨500, .failure "Error during login." e⟩)
        | .ok accessToken =>
          ({ session with authorization := some ⟨some accessToken, user.username⟩ },
            ⟨200, .loggedIn "Login successful." accessToken⟩)

/-- A call that can reach the user directory, run from start to end with no other call in
between. -/
inductive AuthOp where
  | register (username password : Option String) (salt : String)
  | login (session : Session) (username password : Option String) (now : Nat)

/-- The array `users` after one call, and the reply; `login` never assigns to `users`. -/
def AuthOp.apply (bc : Bcrypt) (jwt : Jwt) (users : List User) : AuthOp → List User × Response
  | .register username password salt =>
    BookReviews.register bc users username password salt
  | .login session username password now =>
    (users, (BookReviews.login bc jwt users session username password now).2)

/-- The array `users` after a sequence of calls that run one after another: each call has
replied before the next one starts. -/
def runOps (bc : Bcrypt) (jwt : Jwt) (users : List User) (ops : List AuthOp) : List User :=
  ops.foldl (fun us op => (op.apply bc jwt us).1) users

/-! ### Overlapping registrations

The handler of `POST /register` is `async`: it runs lines 30-41, is suspended at
`await bcrypt.hash(password, 10)` (line 45) and runs lines 48-50 when the hash has settled.
Other calls run while it is suspended. -/

/-- A `POST /register` call suspended at `await bcrypt.hash`: its checks have passed. -/
structure Suspended where
  username : String
  password : String
  salt : String
deriving DecidableEq, Repr

/-- Lines 30-41 of the handler of `POST /register`, up to the `await`: a reply, or the call
suspended. -/
def registerBegin (users : List User) (username password : Option String) (salt : String) :
    Response ⊕ Suspended :=
  if isFalsy username || isFalsy password then
    .inl ⟨400, .message "Unable to register user. Username and password are required."⟩
  else
    let name := username.getD ""
    if doesExist users name then .inl ⟨409, .message "User already exists!"⟩
    else .inr ⟨name, password.getD "", salt⟩

/-- Lines 45-54 of the handler of `POST /register`, from the settling of the hash on, on the
array `users` as it is by then. -/
def registerResume (bc : Bcrypt) (users : List User) (call : Suspended) : List User × Response :=
  match bc.hash call.password 10 call.salt with
  | .ok hashedPassword =>
    (users ++ [⟨call.username, hashedPassword⟩],
      ⟨200, .message "User successfully registered. You can now login."⟩)
  | .error e => (users, ⟨500, .failure "Error during user registration." e⟩)

/-- The server between two events: the array `users`, the registrations suspended at their
hash, and the replies sent so far. -/
structure Server where
  users : List User
  suspended : List Suspended
  replies : List Response
deriving DecidableEq, Repr

/-- What the event loop runs next: a `POST /register` arrives, a `POST /customer/login` is
served, or the hash of the suspended registration number `i` settles. -/
inductive Event where
  | arrive (username password : Option String) (salt : String)
  | login (session : Session) (username password : Option String) (now : Nat)
  | settle (i : Nat)

/-- The server after one event. -/
def Event.apply (bc : Bcrypt) (jwt : Jwt) (sv : Server) : Event → Server
  | .arrive username password salt =>
    match registerBegin sv.users username password salt with
    | .inl reply => { sv with replies := sv.replies ++ [reply] }
    | .inr call => { sv with suspended := sv.suspended ++ [call] }
  | .login session username password now =>
    { sv with replies :=
        sv.replies ++ [(BookReviews.login bc jwt sv.users session username password now).2] }
  | .settle i =>
    match sv.suspended[i]? with
    | none => sv
    | some call =>
      ⟨(registerResume bc sv.users call).1, sv.suspended.eraseIdx i,
        sv.replies ++ [(registerResume bc sv.users call).2]⟩

/-- The server after a sequence of events. -/
def runEvents (bc : Bcrypt) (jwt : Jwt) (sv : Server) (events : List Event) : Server :=
  events.foldl (Event.apply bc jwt) sv

/-! ## Book store (`general.js`, `auth_users.js`) -/

/-- The own property names of `Object.prototype`: every object written as a literal
inherits them (the source itself calls `books.hasOwnProperty`). -/
def objectPrototypeNames : List String :=
  ["constructor", "__defineGetter__", "__defineSetter__", "hasOwnProperty",
   "__lookupGetter__", "__lookupSetter__", "isPrototypeOf", "propertyIsEnumerable",
   "toString", "valueOf", "__proto__", "toLocaleString"]

/-- The state of the runtime outside the store, as far as the handlers can see it.
`toLowerCase` is `String.prototype.toLowerCase`.  `added` lists property names put on
`Object.prototype` since start-up.  `builtinReview name username` tells whether the
built-in object reached as `books[name]` has a truthy `reviews[username]`. -/
structure JsEnv where
  toLowerCase : String → String
  added : List String
  builtinReview : String → String → Bool

/-- Whether a property read that found no own property finds `key` on `Object.prototype`;
everything found there is an object or a function, hence truthy. -/
def JsEnv.inherits (env : JsEnv) (key : String) : Bool :=
  objectPrototypeNames.contains key || env.added.contains key

/-- The result of the property read `o[key]` on a plain object. -/
inductive Member (α : Type) where
  | own (v : α)
  | inherited
  | missing
deriving DecidableEq, Repr

/-- The property read `o[key]` on a plain object with own properties `o`. -/
def getMember {α : Type} (env : JsEnv) (o : List (String × α)) (key : String) : Member α :=
  match o.lookup key with
  | some v => .own v
  | none => if env.inherits key then .inherited else .missing

/-- The assignment `o[key] = v` to an own property: overwrites in place or appends. -/
def setProp {α : Type} : List (String × α) → String → α → List (String × α)
  | [], key, v => [(key, v)]
  | (k, w) :: rest, key, v =>
    if k == key then (key, v) :: rest else (k, w) :: setProp rest key v

/-- The statement `delete o[key]` on the own properties. -/
def delProp {α : Type} : List (String × α) → String → List (String × α)
  | [], _ => []
  | (k, w) :: rest, key => if k == key then rest else (k, w) :: delProp rest key

/-- Truthiness of `reviews[username]`: an own entry, else what the prototype chain gives. -/
def Reviews.has (env : JsEnv) (r : Reviews) (username : String) : Bool :=
  match r.own.lookup username with
  | some _ => true
  | none =>
    match r.proto with
    | some p =>
      if username == "text" then p.text != ""
      else if username == "timestamp" then p.timestamp != ""
      else env.inherits username
    | none => env.inherits username

/-- The assignment `reviews[username] = review`.  The key `__proto__` is the accessor of
`Object.prototype`: assigning an object to it replaces the prototype and creates no own
property. -/
def Reviews.set (r : Reviews) (username : String) (review : Review) : Reviews :=
  if username == "__proto__" then { r with proto := some review }
  else { r with own := setProp r.own username review }

/-- The statement `delete reviews[username]`: removes an own property, if any. -/
def Reviews.delete (r : Reviews) (username : String) : Reviews :=
  { r with own := delProp r.own username }

/-- The test `haystack.includes(needle)`. -/
def includes (haystack needle : String) : Bool :=
  haystack.data.tails.any (fun t => needle.data.isPrefixOf t)

/-- The handler of `GET /`. -/
def getAll (books : Books) : Response :=
  ⟨200, .allBooks books⟩

/-- The handler of `GET /isbn/:isbn`. -/
def getByIsbn (env : JsEnv) (books : Books) (isbn : String) : Response :=
  match getMember env books isbn with
  | .own book => ⟨200, .book book⟩
  | .inherited => ⟨200, .builtin isbn⟩
  | .missing => ⟨404, .message "Book not found with this ISBN."⟩

/-- The handler of `GET /author/:author`: the loop over the own properties of `books`,
pushing each match, then the reply. -/
def getByAuthor (env : JsEnv) (books : Books) (author : String) : Response :=
  let filtered_books := books.foldl
    (fun acc entry =>
      if includes (env.toLowerCase entry.2.author) (env.toLowerCase author)
      then acc ++ [entry.2] else acc) []
  if filtered_books.length > 0 then ⟨200, .bookList filtered_books⟩
  else ⟨404, .message "No books found by this author."⟩

/-- The handler of `GET /title/:title`. -/
def getByTitle (env : JsEnv) (books : Books) (title : String) : Response :=
  let filtered_books := books.foldl
    (fun acc entry =>
      if includes (env.toLowerCase entry.2.title) (env.toLowerCase title)
      then acc ++ [entry.2] else acc) []
  if filtered_books.length > 0 then ⟨200, .bookList filtered_books⟩
  else ⟨404, .message "No books found with this title."⟩

/-- The handler of `GET /review/:isbn`. -/
def getReviews (env : JsEnv) (books : Books) (isbn : String) : Response :=
  match getMember env books isbn with
  | .own book => ⟨200, .reviews book.reviews⟩
  | .inherited => ⟨200, .builtinReviews isbn⟩
  | .missing => ⟨404, .message "Book not found with this ISBN."⟩

/-- The handler of `PUT /customer/auth/review/:isbn`; `timestamp` is
`new Date().toISOString()`.  Returns the store after the call and the reply; `none` when
reading `req.session.authorization.username` throws.  A book of the store always has its
`reviews` object, so the line `if (!book.reviews)` changes nothing there.  When `books[isbn]`
is a built-in object the write lands on that object, outside the store. -/
def putReview (env : JsEnv) (books : Books) (session : Session) (isbn : String)
    (review : Option String) (timestamp : String) : Option (Books × Response) :=
  match session.authorization with
  | none => none
  | some a =>
    let username := a.username
    if isFalsy review then
      some (books, ⟨400, .message "Review text is required to add or modify a review."⟩)
    else
      let saved : Review := ⟨review.getD "", timestamp⟩
      let reply : Response := ⟨200, .reviewSaved
        ("Review for ISBN " ++ isbn ++ " by " ++ username ++ " successfully added/modified.")
        saved⟩
      match getMember env books isbn with
      | .missing => some (books, ⟨404, .message "Book not found."⟩)
      | .inherited => some (books, reply)
      | .own book =>
        some (setProp books isbn { book with reviews := book.reviews.set username saved }, reply)

/-- The handler of `DELETE /customer/auth/review/:isbn`. -/
def deleteReview (env : JsEnv) (books : Books) (session : Session) (isbn : String) :
    Option (Books × Response) :=
  match session.authorization with
  | none => none
  | some a =>
    let username := a.username
    let deleted : Response := ⟨200, .message
      ("Review for ISBN " ++ isbn ++ " by " ++ username ++ " successfully deleted.")⟩
    let noReview : Response :=
      ⟨404, .message "No review found from this user for this book."⟩
    match getMember env books isbn with
    | .missing => some (books, ⟨404, .message "Book not found."⟩)
    | .inherited =>
      if env.builtinReview isbn username then some (books, deleted) else some (books, noReview)
    | .own book =>
      if book.reviews.has env username then
        some (setProp books isbn { book with reviews := book.reviews.delete username }, deleted)
      else some (books, noReview)

/-- A call that can reach the book store. -/
inductive StoreOp where
  | getAll
  | getByIsbn (isbn : String)
  | getByAuthor (author : String)
  | getByTitle (title : String)
  | getReviews (isbn : String)
  | putReview (session : Session) (isbn : String) (review : Option String) (timestamp : String)
  | deleteReview (session : Session) (isbn : String)

/-- The store after one call, and the reply; the five `GET` handlers only read `books`. -/
def StoreOp.apply (env : JsEnv) (books : Books) : StoreOp → Option (Books × Response)
  | .getAll => some (books, BookReviews.getAll books)
  | .getByIsbn isbn => some (books, BookReviews.getByIsbn env books isbn)
  | .getByAuthor author => some (books, BookReviews.getByAuthor env books author)
  | .getByTitle title => some (books, BookReviews.getByTitle env books title)
  | .getReviews isbn => some (books, BookReviews.getReviews env books isbn)
  | .putReview session isbn review timestamp =>
    BookReviews.putReview env books session isbn review timestamp
  | .deleteReview session isbn => BookReviews.deleteReview env books session isbn

/-- The book id and the username a call writes under: `req.params.isbn` and
`req.session.authorization.username` for the two review handlers, nothing for a `GET`. -/
def StoreOp.writes : StoreOp → Option (String × String)
  | .putReview session isbn _ _ => session.authorization.map (fun a => (isbn, a.username))
  | .deleteReview session isbn => session.authorization.map (fun a => (isbn, a.username))
  | _ => none

/-- The frame of a call that writes under `w = some (id, u)` (or writes nothing, `w = none`):
the ids of the store stay as they are; a call that writes nothing leaves the store as it
is; a book the call does not write to is unchanged; every book keeps its author and title,
the entry of every user other than `u`, and the prototype of its review mapping unless `u`
is `__proto__`. -/
def FrameHolds (w : Option (String × String)) (books books2 : Books) : Prop :=
  books2.map Prod.fst = books.map Prod.fst ∧
  (w = none → books2 = books) ∧
  (∀ id, (∀ u, w ≠ some (id, u)) → books2.lookup id = books.lookup id) ∧
  (∀ id b, books.lookup id = some b → ∃ b2, books2.lookup id = some b2 ∧
    b2.author = b.author ∧ b2.title = b.title ∧
    (∀ v, w ≠ some (id, v) → b2.reviews.own.lookup v = b.reviews.own.lookup v) ∧
    (w ≠ some (id, "__proto__") → b2.reviews.proto = b.reviews.proto))

/-! ## Reference instances

Small executable stand-ins for the libraries and the runtime, used to evaluate the handlers
on concrete requests. -/

/-- Decimal reading of a digit string. -/
def parseNat (cs : List Char) : Option Nat :=
  if cs.isEmpty then none
  else cs.foldl
    (fun acc c => acc.bind fun n => if c.isDigit then some (10 * n + (c.toNat - 48)) else none)
    (some 0)

/-- A token library: the token spells out `iat.exp.secret.username`; it verifies when the
secret agrees and the clock is before `exp`. -/
def refJwt : Jwt where
  sign username secret expiresIn now :=
    .ok (toString now ++ "." ++ toString (now + expiresIn) ++ "." ++ secret ++ "." ++ username)
  verify token secret now :=
    match jsSplit '.' token.data with
    | iat :: exp :: sec :: name :: rest =>
      match parseNat iat, parseNat exp with
      | some i, some e =>
        if String.mk sec == secret then
          if now < e then .ok ⟨some (String.mk (List.intercalate ['.'] (name :: rest))), i, e⟩
          else .error "jwt expired"
        else .error "invalid signature"
      | _, _ => .error "jwt malformed"
    | _ => .error "jwt malformed"

/-- A password library: the stored form is `salt$password`. -/
def refBcrypt : Bcrypt where
  hash password _ salt := .ok (salt ++ "$" ++ password)
  compare password stored := .ok (("$" ++ password).data.isSuffixOf stored.data)

/-- The runtime at start-up, lower-casing the ASCII letters. -/
def startEnv : JsEnv where
  toLowerCase s := String.mk (s.data.map Char.toLower)
  added := []
  builtinReview _ _ := false

/-- A session before any login. -/
def freshSession : Session := ⟨none, false, none⟩

/-- The token `refJwt` signs for `alice` at clock 0 with one hour of validity. -/
def aliceToken : String :=
  "0.3600." ++ JWT_SECRET ++ ".alice"

/-- A store holding the seed book the specification quotes. -/
def sampleBooks : Books :=
  [("8", ⟨"Jane Austen", "Pride and Prejudice", ⟨[], none⟩⟩)]

/-- A request with a fresh session that carries `aliceToken` as a bearer header. -/
def bearerOnlyRequest : Request :=
  ⟨freshSession, some ("Bearer " ++ aliceToken), none⟩

/-- A request whose session holds an `authorization` object without a token, with
`aliceToken` as a bearer header. -/
def tokenlessSessionRequest : Request :=
  ⟨⟨some ⟨none, "alice"⟩, false, none⟩, some ("Bearer " ++ aliceToken), none⟩

/-- The books of the store, in store order, whose `field`, lower-cased, contains the
lower-cased query as a substring: the search as the specification words it. -/
def matchingBooks (field : Book → String) (env : JsEnv) (books : Books) (query : String) :
    List Book :=
  (books.map Prod.snd).filter
    (fun b => decide ((env.toLowerCase query).data <:+: (env.toLowerCase (field b)).data))

/-- A session logged in as `username` with `aliceToken`. -/
def sessionOf (username : String) : Session :=
  ⟨some ⟨some aliceToken, username⟩, true, some username⟩

/-- The sample store after the user `__proto__` has reviewed book 8 with the text `nice`. -/
def sampleBooksAfterProto : Books :=
  [("8", ⟨"Jane Austen", "Pride and Prejudice", ⟨[], some ⟨"nice", "t0"⟩⟩⟩)]

/-! ## Theorems -/

/-! ### Splitting the authorization header -/

theorem jsSplit_of_not_mem (sep : Char) (cs : List Char) (h : sep ∉ cs) :
    jsSplit sep cs = [cs] := by
  induction cs with
  | nil => rfl
  | cons c cs ih =>
    have hc : c ≠ sep := fun e => h (e ▸ List.mem_cons_self _ _)
    have hcs : sep ∉ cs := fun m => h (List.mem_cons_of_mem _ m)
    simp [jsSplit, hc, ih hcs]

theorem secondField_bearer (tok : String) (h : ' ' ∉ tok.data) :
    secondField ("Bearer " ++ tok) = some tok := by
  have hd : ("Bearer " ++ tok).data = 'B' :: 'e' :: 'a' :: 'r' :: 'e' :: 'r' :: ' ' :: tok.data := by
    simp [String.data_append]
  simp [secondField, hd, jsSplit, jsSplit_of_not_mem ' ' tok.data h]

theorem bearer_ne_empty (tok : String) : (("Bearer " ++ tok) == "") = false := by
  have hd : ("Bearer " ++ tok).data ≠ "".data := by simp [String.data_append]
  simpa using fun e : "Bearer " ++ tok = "" => hd (congrArg String.data e)

/-! ### The gate -/

/-- C1 (as stated, refuted): a request on a fresh session (no `session.authorization`)
carrying `Bearer <token>` with a token that verifies and is unexpired is answered 401; the
gate does not admit it. -/
theorem bearer_without_session_rejected :
    bearerOnlyRequest.session.authorization = none ∧
    bearerOnlyRequest.authHeader = some ("Bearer " ++ aliceToken) ∧
    refJwt.verify aliceToken JWT_SECRET 10 = .ok ⟨some "alice", 0, 3600⟩ ∧
    (auth refJwt 10 bearerOnlyRequest).2 =
      .respond ⟨401, .message "User not logged in. Authentication required."⟩ ∧
    (auth refJwt 10 bearerOnlyRequest).2 ≠ .next :=
  ⟨rfl, rfl, rfl, by decide, by decide⟩

/-- C1 (amended): the gate reads the bearer header only inside a session that holds an
`authorization` object.  With no such object the reply is 401 whatever the header carries;
with an `authorization` object that has no access token, a header `Bearer <token>` whose
token (non-empty, without a space) verifies is admitted and the payload attached. -/
theorem gate_header_lookup (jwt : Jwt) (now : Nat) (req : Request) :
    (req.session.authorization = none →
      auth jwt now req =
        (req, .respond ⟨401, .message "User not logged in. Authentication required."⟩)) ∧
    (∀ (a : Authorization) (tok : String) (user : Claims),
      req.session.authorization = some a → isFalsy a.accessToken = true →
      req.authHeader = some ("Bearer " ++ tok) → tok ≠ "" → ' ' ∉ tok.data →
      jwt.verify tok JWT_SECRET now = .ok user →
      (auth jwt now req).2 = .next ∧ (auth jwt now req).1.user = some user) := by
  constructor
  · intro h
    simp [auth, h]
  · intro a tok user hs ha hh hne hsp hv
    have hg : gateToken a req.authHeader = some tok := by
      simp [gateToken, ha, hh, bearer_ne_empty, secondField_bearer tok hsp]
    have hne2 : (tok == "") = false := by simpa using hne
    simp [auth, hs, hg, hne2, hv]

/-- C1 (amended), evaluated on a fresh session and on a session whose `authorization`
object has no token. -/
theorem gate_header_lookup_witness :
    auth refJwt 10 bearerOnlyRequest =
      (bearerOnlyRequest,
        .respond ⟨401, .message "User not logged in. Authentication required."⟩) ∧
    ((auth refJwt 10 tokenlessSessionRequest).2 = .next ∧
      (auth refJwt 10 tokenlessSessionRequest).1.user = some ⟨some "alice", 0, 3600⟩) :=
  ⟨(gate_header_lookup refJwt 10 bearerOnlyRequest).1 rfl,
   (gate_header_lookup refJwt 10 tokenlessSessionRequest).2 ⟨none, "alice"⟩ aliceToken
      ⟨some "alice", 0, 3600⟩ rfl rfl rfl (by decide) (by decide) rfl⟩

/-- C2: when the gate finds a credential token, it calls `next()` exactly when the token
verifies; then the payload is `req.user`, its username is `session.username` and
`session.authenticated` is set; when the token does not verify the reply is 403, the
handler is not reached and `session.authorization` is cleared. -/
theorem gate_decision (jwt : Jwt) (now : Nat) (req : Request) (token : String)
    (hfound : credential req = some token) :
    ((auth jwt now req).2 = .next ↔ ∃ user, jwt.verify token JWT_SECRET now = .ok user) ∧
    (∀ user, jwt.verify token JWT_SECRET now = .ok user →
      (auth jwt now req).2 = .next ∧
      (auth jwt now req).1.user = some user ∧
      (auth jwt now req).1.session.username = user.username ∧
      (auth jwt now req).1.session.authenticated = true ∧
      (auth jwt now req).1.session.authorization = req.session.authorization) ∧
    (∀ e, jwt.verify token JWT_SECRET now = .error e →
      (auth jwt now req).2 =
        .respond ⟨403, .message "Authentication token is invalid or expired. Forbidden."⟩ ∧
      (auth jwt now req).2 ≠ .next ∧
      (auth jwt now req).1.session.authorization = none) := by
  unfold credential at hfound
  cases hs : req.session.authorization with
  | none => simp [hs] at hfound
  | some a =>
    simp only [hs] at hfound
    cases hg : gateToken a req.authHeader with
    | none => simp [hg] at hfound
    | some t =>
      simp only [hg] at hfound
      by_cases ht : (t == "") = true
      · simp [ht] at hfound
      · have ht2 : (t == "") = false := by simpa using ht
        simp [ht2] at hfound
        subst hfound
        cases hv : jwt.verify t JWT_SECRET now with
        | error e => simp [auth, hs, hg, ht2, hv]
        | ok user => simp [auth, hs, hg, ht2, hv]

/-- C2, evaluated on a session holding `aliceToken`, before and after its expiry. -/
theorem gate_decision_witness :
    ((auth refJwt 10 ⟨⟨some ⟨some aliceToken, "alice"⟩, false, none⟩, none, none⟩).2 = .next ∧
      (auth refJwt 10 ⟨⟨some ⟨some aliceToken, "alice"⟩, false, none⟩, none, none⟩).1.user =
        some ⟨some "alice", 0, 3600⟩) ∧
    ((auth refJwt 3600 ⟨⟨some ⟨some aliceToken, "alice"⟩, false, none⟩, none, none⟩).2 =
      .respond ⟨403, .message "Authentication token is invalid or expired. Forbidden."⟩) :=
  ⟨let h := (gate_decision refJwt 10 ⟨⟨some ⟨some aliceToken, "alice"⟩, false, none⟩, none, none⟩
      aliceToken rfl).2.1 ⟨some "alice", 0, 3600⟩ rfl
   ⟨h.1, h.2.1⟩,
   ((gate_decision refJwt 3600 ⟨⟨some ⟨some aliceToken, "alice"⟩, false, none⟩, none, none⟩
      aliceToken rfl).2.2 "jwt expired" rfl).1⟩

/-! ### The user directory -/

theorem isFalsy_some (s : String) : isFalsy (some s) = true ↔ s = "" := by
  simp [isFalsy]

theorem doesExist_eq_true_iff (users : List User) (u : String) :
    doesExist users u = true ↔ ∃ x ∈ users, x.username = u := by
  simp [doesExist, List.length_pos, List.filter_eq_nil_iff]

theorem doesExist_eq_false_iff (users : List User) (u : String) :
    doesExist users u = false ↔ ∀ x ∈ users, x.username ≠ u := by
  rw [← Bool.not_eq_true, doesExist_eq_true_iff]
  simp

theorem isValid_eq_doesExist (users : List User) (u : String) :
    isValid users u = doesExist users u := by
  rw [Bool.eq_iff_iff, doesExist_eq_true_iff]
  simp [isValid]

/-- Each call either leaves `users` as it is or pushes one entry with a new username. -/
theorem register_users (bc : Bcrypt) (users : List User) (username password : Option String)
    (salt : String) :
    (register bc users username password salt).1 = users ∨
    ∃ u h, doesExist users u = false ∧
      (register bc users username password salt).1 = users ++ [⟨u, h⟩] := by
  unfold register
  split
  · exact Or.inl rfl
  · by_cases hex : doesExist users (username.getD "") = true
    · simp [hex]
    · cases hh : bc.hash (password.getD "") 10 salt with
      | error e => simp [hex, hh]
      | ok h =>
        right
        exact ⟨username.getD "", h, by simpa using hex, by simp [hex, hh]⟩

theorem apply_users (bc : Bcrypt) (jwt : Jwt) (users : List User) (op : AuthOp) :
    (op.apply bc jwt users).1 = users ∨
    ∃ u h, doesExist users u = false ∧ (op.apply bc jwt users).1 = users ++ [⟨u, h⟩] := by
  cases op with
  | register username password salt => exact register_users bc users username password salt
  | login session username password now => exact Or.inl rfl

theorem apply_isPrefix (bc : Bcrypt) (jwt : Jwt) (users : List User) (op : AuthOp) :
    users <+: (op.apply bc jwt users).1 := by
  rcases apply_users bc jwt users op with h | ⟨u, h, _, e⟩
  · rw [h]
  · rw [e]; exact List.prefix_append _ _

theorem runOps_isPrefix (bc : Bcrypt) (jwt : Jwt) (ops : List AuthOp) :
    ∀ users : List User, users <+: runOps bc jwt users ops := by
  induction ops with
  | nil => intro users; exact List.prefix_refl _
  | cons op ops ih =>
    intro users
    exact (apply_isPrefix bc jwt users op).trans (ih _)

theorem apply_nodup (bc : Bcrypt) (jwt : Jwt) (users : List User) (op : AuthOp)
    (hn : (users.map User.username).Nodup) :
    (((op.apply bc jwt users).1).map User.username).Nodup := by
  rcases apply_users bc jwt users op with h | ⟨u, h, hu, e⟩
  · rw [h]; exact hn
  · rw [e, List.map_append, List.nodup_append]
    refine ⟨hn, by simp, ?_⟩
    rw [doesExist_eq_false_iff] at hu
    intro a ha hb
    simp only [List.map_cons, List.map_nil, List.mem_singleton] at hb
    obtain ⟨x, hx, rfl⟩ := List.mem_map.1 ha
    exact hu x hx hb

theorem runOps_nodup (bc : Bcrypt) (jwt : Jwt) (ops : List AuthOp) :
    ∀ users : List User, (users.map User.username).Nodup →
      ((runOps bc jwt users ops).map User.username).Nodup := by
  induction ops with
  | nil => intro users hn; exact hn
  | cons op ops ih =>
    intro users hn
    exact ih _ (apply_nodup bc jwt users op hn)

theorem doesExist_of_isPrefix (users later : List User) (u : String) (hp : users <+: later)
    (h : doesExist users u = true) : doesExist later u = true := by
  rw [doesExist_eq_true_iff] at *
  obtain ⟨x, hx, e⟩ := h
  exact ⟨x, hp.subset hx, e⟩

/-- What a successful registration tells: both fields present, the name new, the hash
resolved, and the new entry pushed. -/
theorem register_ok_inv (bc : Bcrypt) (users : List User) (u p salt : String)
    (h : (register bc users (some u) (some p) salt).2.status = 200) :
    u ≠ "" ∧ p ≠ "" ∧ doesExist users u = false ∧
    ∃ hp, bc.hash p 10 salt = .ok hp ∧
      (register bc users (some u) (some p) salt).1 = users ++ [⟨u, hp⟩] := by
  unfold register at h ⊢
  by_cases hf : (isFalsy (some u) || isFalsy (some p)) = true
  · simp [hf] at h
  · have hf2 : ¬ (u = "" ∨ p = "") := by simpa [isFalsy] using hf
    by_cases hex : doesExist users u = true
    · simp [hf, hex] at h
    · cases hh : bc.hash p 10 salt with
      | error e => simp [hf, hex, hh] at h
      | ok hp =>
        refine ⟨fun e => hf2 (Or.inl e), fun e => hf2 (Or.inr e), by simpa using hex, hp, rfl, ?_⟩
        simp [hf, hex, hh]

theorem register_conflict (bc : Bcrypt) (users : List User) (u p salt : String)
    (hu : u ≠ "") (hp : p ≠ "") (hd : doesExist users u = true) :
    register bc users (some u) (some p) salt =
      (users, ⟨409, .message "User already exists!"⟩) := by
  simp [register, isFalsy, hu, hp, hd]

/-- C3: `register` answers 400 when a field is missing (absent or empty) and otherwise 409
when the username is already in the directory, both without touching the directory;
otherwise, the hash of the password having resolved to `h`, it answers 200 and the
directory is the old one followed by the single entry `(username, h)`; the stored password
is the value `bcrypt.hash` returned.  Every reply other than 200 leaves the directory
unchanged. -/
theorem register_outcomes (bc : Bcrypt) (users : List User) (username password : Option String)
    (salt : String) :
    (isFalsy username = true ∨ isFalsy password = true →
      register bc users username password salt =
        (users, ⟨400, .message "Unable to register user. Username and password are required."⟩)) ∧
    (∀ u p, username = some u → password = some p → u ≠ "" → p ≠ "" →
      (∃ x ∈ users, x.username = u) →
      register bc users username password salt =
        (users, ⟨409, .message "User already exists!"⟩)) ∧
    (∀ u p h, username = some u → password = some p → u ≠ "" → p ≠ "" →
      (∀ x ∈ users, x.username ≠ u) → bc.hash p 10 salt = .ok h →
      register bc users username password salt =
        (users ++ [⟨u, h⟩],
          ⟨200, .message "User successfully registered. You can now login."⟩)) ∧
    ((register bc users username password salt).2.status ≠ 200 →
      (register bc users username password salt).1 = users) := by
  refine ⟨?_, ?_, ?_, ?_⟩
  · intro h
    have : (isFalsy username || isFalsy password) = true := by simpa using h
    simp [register, this]
  · rintro u p rfl rfl hu hp hex
    exact register_conflict bc users u p salt hu hp ((doesExist_eq_true_iff users u).2 hex)
  · rintro u p h rfl rfl hu hp hnew hh
    have hd := (doesExist_eq_false_iff users u).2 hnew
    simp [register, isFalsy, hu, hp, hd, hh]
  · intro hs
    unfold register at hs ⊢
    split
    · rfl
    · by_cases hex : doesExist users (username.getD "") = true
      · simp [hex]
      · cases hh : bc.hash (password.getD "") 10 salt with
        | error e => simp [hex, hh]
        | ok h => simp_all

/-- C3, evaluated: a missing password, a taken name, and a new name. -/
theorem register_outcomes_witness :
    register refBcrypt [⟨"alice", "s$pw"⟩] (some "bob") none "t" =
      ([⟨"alice", "s$pw"⟩],
        ⟨400, .message "Unable to register user. Username and password are required."⟩) ∧
    register refBcrypt [⟨"alice", "s$pw"⟩] (some "alice") (some "other") "t" =
      ([⟨"alice", "s$pw"⟩], ⟨409, .message "User already exists!"⟩) ∧
    register refBcrypt [⟨"alice", "s$pw"⟩] (some "bob") (some "pw2") "t" =
      ([⟨"alice", "s$pw"⟩, ⟨"bob", "t$pw2"⟩],
        ⟨200, .message "User successfully registered. You can now login."⟩) :=
  ⟨(register_outcomes refBcrypt [⟨"alice", "s$pw"⟩] (some "bob") none "t").1 (Or.inr rfl),
   (register_outcomes refBcrypt [⟨"alice", "s$pw"⟩] (some "alice") (some "other") "t").2.1
      "alice" "other" rfl rfl (by decide) (by decide) ⟨⟨"alice", "s$pw"⟩, by simp, rfl⟩,
   (register_outcomes refBcrypt [⟨"alice", "s$pw"⟩] (some "bob") (some "pw2") "t").2.2.1
      "bob" "pw2" "t$pw2" rfl rfl (by decide) (by decide) (by simp) rfl⟩

theorem register_eq_begin_resume (bc : Bcrypt) (users : List User)
    (username password : Option String) (salt : String) :
    register bc users username password salt =
      match registerBegin users username password salt with
      | .inl reply => (users, reply)
      | .inr call => registerResume bc users call := by
  unfold register registerBegin
  split
  · rfl
  · by_cases hex : doesExist users (username.getD "") = true
    · simp [hex]
    · simp [hex, registerResume]

/-- A registration that arrives and whose hash settles before anything else happens is
one call of `register`. -/
theorem arrive_settle_eq_register (bc : Bcrypt) (jwt : Jwt) (users : List User)
    (replies : List Response) (username password : Option String) (salt : String) :
    runEvents bc jwt ⟨users, [], replies⟩ [.arrive username password salt, .settle 0] =
      ⟨(register bc users username password salt).1, [],
        replies ++ [(register bc users username password salt).2]⟩ := by
  rw [register_eq_begin_resume]
  cases hb : registerBegin users username password salt with
  | inl reply => simp [runEvents, Event.apply, hb]
  | inr call => simp [runEvents, Event.apply, hb]

theorem registerResume_users (bc : Bcrypt) (users : List User) (call : Suspended) :
    users <+: (registerResume bc users call).1 := by
  unfold registerResume
  split
  · exact List.prefix_append _ _
  · exact List.prefix_refl _

theorem event_apply_isPrefix (bc : Bcrypt) (jwt : Jwt) (sv : Server) (ev : Event) :
    sv.users <+: (ev.apply bc jwt sv).users := by
  cases ev with
  | arrive username password salt =>
    simp only [Event.apply]
    split <;> exact List.prefix_refl _
  | login session username password now => exact List.prefix_refl _
  | settle i =>
    simp only [Event.apply]
    split
    · exact List.prefix_refl _
    · exact registerResume_users bc sv.users _

theorem runEvents_isPrefix (bc : Bcrypt) (jwt : Jwt) (events : List Event) :
    ∀ sv : Server, sv.users <+: (runEvents bc jwt sv events).users := by
  induction events with
  | nil => intro sv; exact List.prefix_refl _
  | cons ev events ih =>
    intro sv
    exact (event_apply_isPrefix bc jwt sv ev).trans (ih _)

theorem register_missing (bc : Bcrypt) (users : List User) (username password : Option String)
    (salt : String) (h : (isFalsy username || isFalsy password) = true) :
    register bc users username password salt =
      (users, ⟨400, .message "Unable to register user. Username and password are required."⟩) := by
  simp [register, h]

/-- C4 (as stated, refuted): two registrations of `alice` overlap, the second arriving
while the first is suspended at its hash: both are answered 200 and the directory holds
two entries `alice` (and the second registrant cannot log in); and, with no overlap, a
second registration of `alice` that carries no password is answered 400, not 409. -/
theorem registration_claim_fails :
    runEvents refBcrypt refJwt ⟨[], [], []⟩
        [.arrive (some "alice") (some "pw1") "s", .arrive (some "alice") (some "pw2") "t",
         .settle 0, .settle 0] =
      ⟨[⟨"alice", "s$pw1"⟩, ⟨"alice", "t$pw2"⟩], [],
        [⟨200, .message "User successfully registered. You can now login."⟩,
         ⟨200, .message "User successfully registered. You can now login."⟩]⟩ ∧
    ¬ (([⟨"alice", "s$pw1"⟩, ⟨"alice", "t$pw2"⟩] : List User).map User.username).Nodup ∧
    login refBcrypt refJwt [⟨"alice", "s$pw1"⟩, ⟨"alice", "t$pw2"⟩] freshSession
        (some "alice") (some "pw2") 0 =
      (freshSession, ⟨401, .message "Invalid username or password."⟩) ∧
    register refBcrypt [] (some "alice") (some "pw") "s" =
      ([⟨"alice", "s$pw"⟩],
        ⟨200, .message "User successfully registered. You can now login."⟩) ∧
    register refBcrypt [⟨"alice", "s$pw"⟩] (some "alice") none "t" =
      ([⟨"alice", "s$pw"⟩],
        ⟨400, .message "Unable to register user. Username and password are required."⟩) := by
  decide

/-- C4 (amended): starting from the empty directory, after any sequence of `register` and
`login` calls that run one after another no two entries carry the same username; no call
and no event of overlapping calls removes or changes an entry (the old directory is an
initial segment of the new one); and once a registration of a username has been answered
200, a registration of that username on any later directory leaves the directory as it is
and is answered 409 when it carries a password and 400 when it does not. -/
theorem directory_unique_without_overlap (bc : Bcrypt) (jwt : Jwt) :
    (∀ ops : List AuthOp, ((runOps bc jwt [] ops).map User.username).Nodup) ∧
    (∀ (users : List User) (ops : List AuthOp), users <+: runOps bc jwt users ops) ∧
    (∀ (sv : Server) (events : List Event), sv.users <+: (runEvents bc jwt sv events).users) ∧
    (∀ (users later : List User) (u p salt : String) (password2 : Option String)
        (salt2 : String),
      (register bc users (some u) (some p) salt).2.status = 200 →
      (register bc users (some u) (some p) salt).1 <+: later →
      register bc later (some u) password2 salt2 =
        (later,
          if isFalsy password2 then
            ⟨400, .message "Unable to register user. Username and password are required."⟩
          else ⟨409, .message "User already exists!"⟩)) := by
  refine ⟨fun ops => runOps_nodup bc jwt ops [] (by simp),
    fun users ops => runOps_isPrefix bc jwt ops users,
    fun sv events => runEvents_isPrefix bc jwt events sv, ?_⟩
  intro users later u p salt password2 salt2 hok hext
  obtain ⟨hu, _, _, hp, _, he⟩ := register_ok_inv bc users u p salt hok
  have hmem : doesExist (register bc users (some u) (some p) salt).1 u = true := by
    rw [he, doesExist_eq_true_iff]
    exact ⟨⟨u, hp⟩, by simp, rfl⟩
  have hlater := doesExist_of_isPrefix _ later u hext hmem
  by_cases hf : isFalsy password2 = true
  · rw [if_pos hf]
    exact register_missing bc later (some u) password2 salt2 (by simp [hf])
  · rw [if_neg hf]
    cases password2 with
    | none => simp [isFalsy] at hf
    | some p2 =>
      have hp2 : p2 ≠ "" := by simpa [isFalsy] using hf
      exact register_conflict bc later u p2 salt2 hu hp2 hlater

/-- C4 (amended), evaluated: `alice` registers, then `bob`; `alice` registering again is
answered 409 with a password and 400 without one. -/
theorem directory_unique_without_overlap_witness :
    register refBcrypt [⟨"alice", "s$pw"⟩, ⟨"bob", "t$pw2"⟩] (some "alice") (some "again") "u" =
      ([⟨"alice", "s$pw"⟩, ⟨"bob", "t$pw2"⟩], ⟨409, .message "User already exists!"⟩) ∧
    register refBcrypt [⟨"alice", "s$pw"⟩, ⟨"bob", "t$pw2"⟩] (some "alice") none "u" =
      ([⟨"alice", "s$pw"⟩, ⟨"bob", "t$pw2"⟩],
        ⟨400, .message "Unable to register user. Username and password are required."⟩) :=
  ⟨(directory_unique_without_overlap refBcrypt refJwt).2.2.2 []
      [⟨"alice", "s$pw"⟩, ⟨"bob", "t$pw2"⟩] "alice" "pw" "s" (some "again") "u"
      (by decide) (by decide),
   (directory_unique_without_overlap refBcrypt refJwt).2.2.2 []
      [⟨"alice", "s$pw"⟩, ⟨"bob", "t$pw2"⟩] "alice" "pw" "s" none "u"
      (by decide) (by decide)⟩

/-! ### Login -/

theorem find_registered (users0 later : List User) (u hp : String)
    (hnew : doesExist users0 u = false) (hext : users0 ++ [⟨u, hp⟩] <+: later) :
    later.find? (fun x => x.username == u) = some ⟨u, hp⟩ := by
  obtain ⟨t, rfl⟩ := hext
  rw [doesExist_eq_false_iff] at hnew
  have h0 : users0.find? (fun x => x.username == u) = none := by
    rw [List.find?_eq_none]
    intro x hx
    simpa using hnew x hx
  simp [List.find?_append, h0]

theorem login_ok (bc : Bcrypt) (jwt : Jwt) (users : List User) (session : Session)
    (u p hp tok : String) (now : Nat) (hu : u ≠ "") (hpw : p ≠ "")
    (hfind : users.find? (fun x => x.username == u) = some ⟨u, hp⟩)
    (hcmp : bc.compare p hp = .ok true) (hsign : jwt.sign u JWT_SECRET 3600 now = .ok tok) :
    login bc jwt users session (some u) (some p) now =
      ({ session with authorization := some ⟨some tok, u⟩ },
        ⟨200, .loggedIn "Login successful." tok⟩) := by
  simp [login, isFalsy, hu, hpw, hfind, hcmp, hsign]

/-- C5 (as stated, refuted): with the username missing and a password that matches no
stored hash, `login` answers 400, not 401. -/
theorem login_without_username_is_400 :
    refBcrypt.compare "wrong" "s$pw" = .ok false ∧
    login refBcrypt refJwt [⟨"alice", "s$pw"⟩] freshSession none (some "wrong") 0 =
      (freshSession, ⟨400, .message "Username and password are required for login."⟩) ∧
    (login refBcrypt refJwt [⟨"alice", "s$pw"⟩] freshSession none (some "wrong") 0).2.status
      ≠ 401 :=
  ⟨rfl, by decide, by decide⟩

/-- C5 (amended): when username and password are both present (non-empty) and the
username is unregistered or the password does not match the stored hash of the entry found
for it, `login` answers 401 with a message only (no token) and leaves the session as it
was; when the username or the password is missing it answers 400, also with no token and
the session as it was. -/
theorem login_rejections (bc : Bcrypt) (jwt : Jwt) (users : List User) (session : Session)
    (username password : Option String) (now : Nat) :
    (isFalsy username = true ∨ isFalsy password = true →
      login bc jwt users session username password now =
        (session, ⟨400, .message "Username and password are required for login."⟩)) ∧
    (∀ u p, username = some u → password = some p → u ≠ "" → p ≠ "" →
      (∀ user, users.find? (fun x => x.username == u) = some user →
        bc.compare p user.password = .ok false) →
      login bc jwt users session username password now =
        (session, ⟨401, .message "Invalid username or password."⟩)) := by
  constructor
  · intro h
    have : (isFalsy username || isFalsy password) = true := by simpa using h
    simp [login, this]
  · rintro u p rfl rfl hu hp hwrong
    cases hf : users.find? (fun x => x.username == u) with
    | none => simp [login, isFalsy, hu, hp, hf]
    | some user => simp [login, isFalsy, hu, hp, hf, hwrong user hf]

/-- C5 (amended), evaluated: a missing username, an unregistered username and a wrong
password for a registered one. -/
theorem login_rejections_witness :
    login refBcrypt refJwt [⟨"alice", "s$pw"⟩] freshSession none (some "wrong") 0 =
      (freshSession, ⟨400, .message "Username and password are required for login."⟩) ∧
    login refBcrypt refJwt [⟨"alice", "s$pw"⟩] freshSession (some "bob") (some "pw") 0 =
      (freshSession, ⟨401, .message "Invalid username or password."⟩) ∧
    login refBcrypt refJwt [⟨"alice", "s$pw"⟩] freshSession (some "alice") (some "wrong") 0 =
      (freshSession, ⟨401, .message "Invalid username or password."⟩) :=
  ⟨(login_rejections refBcrypt refJwt [⟨"alice", "s$pw"⟩] freshSession none (some "wrong") 0).1
      (Or.inl rfl),
   (login_rejections refBcrypt refJwt [⟨"alice", "s$pw"⟩] freshSession (some "bob") (some "pw")
      0).2 "bob" "pw" rfl rfl (by decide) (by decide) (fun user h => by simp at h),
   (login_rejections refBcrypt refJwt [⟨"alice", "s$pw"⟩] freshSession (some "alice")
      (some "wrong") 0).2 "alice" "wrong" rfl rfl (by decide) (by decide)
      (fun user h => by
        have e : user = ⟨"alice", "s$pw"⟩ := by simpa using h.symm
        subst e; rfl)⟩

/-- C6: let `u` have registered with password `p`, and let `users` be any later directory.
Given the libraries' contract (the password matches the hash made of it; `jwt.sign` of `u`
for 3600 s returns a non-empty token `tok` that verifies to `u` before `now + 3600` and
fails from then on), `login u p` at clock `now` answers 200 with `tok`, and stores that same
token with `u` as `session.authorization`; a protected request on that session passes the
gate with identity `u` while the clock is before `now + 3600`, and is answered 403 from
`now + 3600` on. -/
theorem login_then_gate (bc : Bcrypt) (jwt : Jwt) (users0 users : List User) (session : Session)
    (u p salt tok : String) (now : Nat)
    (hreg : (register bc users0 (some u) (some p) salt).2.status = 200)
    (hlater : (register bc users0 (some u) (some p) salt).1 <+: users)
    (hcmp : ∀ h, bc.hash p 10 salt = .ok h → bc.compare p h = .ok true)
    (hsign : jwt.sign u JWT_SECRET 3600 now = .ok tok) (htok : tok ≠ "")
    (hvalid : ∀ later, later < now + 3600 →
      jwt.verify tok JWT_SECRET later = .ok ⟨some u, now, now + 3600⟩)
    (hexpired : ∀ later, now + 3600 ≤ later → ∃ e, jwt.verify tok JWT_SECRET later = .error e) :
    (login bc jwt users session (some u) (some p) now).2 =
      ⟨200, .loggedIn "Login successful." tok⟩ ∧
    (login bc jwt users session (some u) (some p) now).1.authorization =
      some ⟨some tok, u⟩ ∧
    ∀ (later : Nat) (header : Option String) (user : Option Claims),
      (later < now + 3600 →
        (auth jwt later ⟨(login bc jwt users session (some u) (some p) now).1, header, user⟩).2
          = .next ∧
        (auth jwt later ⟨(login bc jwt users session (some u) (some p) now).1, header, user⟩).1.user
          = some ⟨some u, now, now + 3600⟩ ∧
        (auth jwt later
          ⟨(login bc jwt users session (some u) (some p) now).1, header, user⟩).1.session.username
          = some u) ∧
      (now + 3600 ≤ later →
        (auth jwt later ⟨(login bc jwt users session (some u) (some p) now).1, header, user⟩).2
          = .respond ⟨403, .message "Authentication token is invalid or expired. Forbidden."⟩) := by
  obtain ⟨hu, hp, hnew, h, hh, he⟩ := register_ok_inv bc users0 u p salt hreg
  rw [he] at hlater
  have hl := login_ok bc jwt users session u p h tok now hu hp
    (find_registered users0 users u h hnew hlater) (hcmp h hh) hsign
  have htok2 : (tok == "") = false := by simpa using htok
  rw [hl]
  refine ⟨rfl, rfl, ?_⟩
  intro later header user
  constructor
  · intro hlt
    simp [auth, gateToken, isFalsy, htok2, hvalid later hlt]
  · intro hge
    obtain ⟨e, he2⟩ := hexpired later hge
    simp [auth, gateToken, isFalsy, htok2, he2]

/-- C6, evaluated: `alice` registers, `bob` registers, `alice` logs in at clock 0; a request
at clock 3599 passes and one at clock 3600 is answered 403. -/
theorem login_then_gate_witness :
    (login refBcrypt refJwt [⟨"alice", "s$pw"⟩, ⟨"bob", "t$pw2"⟩] freshSession
      (some "alice") (some "pw") 0).2 = ⟨200, .loggedIn "Login successful." aliceToken⟩ ∧
    (auth refJwt 3599 ⟨(login refBcrypt refJwt [⟨"alice", "s$pw"⟩, ⟨"bob", "t$pw2"⟩] freshSession
      (some "alice") (some "pw") 0).1, none, none⟩).2 = .next ∧
    (auth refJwt 3600 ⟨(login refBcrypt refJwt [⟨"alice", "s$pw"⟩, ⟨"bob", "t$pw2"⟩] freshSession
      (some "alice") (some "pw") 0).1, none, none⟩).2 =
      .respond ⟨403, .message "Authentication token is invalid or expired. Forbidden."⟩ :=
  have h := login_then_gate refBcrypt refJwt [] [⟨"alice", "s$pw"⟩, ⟨"bob", "t$pw2"⟩]
    freshSession "alice" "pw" "s" aliceToken 0 (by decide) (by decide)
    (fun h hh => by cases hh; rfl) rfl (by decide)
    (fun later hlt => by
      have e : refJwt.verify aliceToken JWT_SECRET later =
          if later < 3600 then .ok ⟨some "alice", 0, 3600⟩ else .error "jwt expired" := rfl
      rw [e, if_pos (by omega)])
    (fun later hge => by
      have e : refJwt.verify aliceToken JWT_SECRET later =
          if later < 3600 then .ok ⟨some "alice", 0, 3600⟩ else .error "jwt expired" := rfl
      exact ⟨"jwt expired", by rw [e, if_neg (by omega)]⟩)
  ⟨h.1, ((h.2.2 3599 none none).1 (by decide)).1, (h.2.2 3600 none none).2 (by decide)⟩

/-! ### Catalogue search -/

theorem includes_iff (haystack needle : String) :
    includes haystack needle = true ↔ needle.data <:+: haystack.data := by
  simp only [includes, List.any_eq_true, List.mem_tails, List.isPrefixOf_iff_prefix]
  rw [List.infix_iff_prefix_suffix]
  constructor
  · rintro ⟨t, ht, hp⟩; exact ⟨t, hp, ht⟩
  · rintro ⟨t, hp, ht⟩; exact ⟨t, ht, hp⟩

theorem foldl_push_eq_filter (p : Book → Bool) (books : Books) :
    ∀ acc : List Book,
      books.foldl (fun acc entry => if p entry.2 then acc ++ [entry.2] else acc) acc =
        acc ++ (books.map Prod.snd).filter p := by
  induction books with
  | nil => intro acc; simp
  | cons e rest ih =>
    intro acc
    by_cases h : p e.2 = true
    · simp [List.foldl_cons, h, ih]
    · simp [List.foldl_cons, h, ih]

theorem loop_eq_matchingBooks (field : Book → String) (env : JsEnv) (books : Books)
    (query : String) :
    books.foldl (fun acc entry =>
        if includes (env.toLowerCase (field entry.2)) (env.toLowerCase query)
        then acc ++ [entry.2] else acc) [] =
      matchingBooks field env books query := by
  rw [foldl_push_eq_filter (fun b => includes (env.toLowerCase (field b)) (env.toLowerCase query))]
  simp only [matchingBooks, List.nil_append]
  congr 1
  funext b
  rw [Bool.eq_iff_iff, includes_iff]
  simp

/-- C7: `GET /author/:author` (and `GET /title/:title`) reply with exactly the books of the
store whose author (title), lower-cased, contains the lower-cased query as a substring, in
store order, each once (a filter of the store's list of books); the reply is 404 exactly
when that list is empty, and 200 with the list otherwise; two queries with the same
lower-casing get the same reply. -/
theorem search_by_substring (env : JsEnv) (books : Books) (query : String) :
    (getByAuthor env books query =
      if matchingBooks Book.author env books query = [] then
        ⟨404, .message "No books found by this author."⟩
      else ⟨200, .bookList (matchingBooks Book.author env books query)⟩) ∧
    (getByTitle env books query =
      if matchingBooks Book.title env books query = [] then
        ⟨404, .message "No books found with this title."⟩
      else ⟨200, .bookList (matchingBooks Book.title env books query)⟩) ∧
    ((getByAuthor env books query).status = 404 ↔ matchingBooks Book.author env books query = []) ∧
    ((getByTitle env books query).status = 404 ↔ matchingBooks Book.title env books query = []) ∧
    (∀ b, b ∈ matchingBooks Book.author env books query ↔
      b ∈ books.map Prod.snd ∧ (env.toLowerCase query).data <:+: (env.toLowerCase b.author).data) ∧
    (∀ b, b ∈ matchingBooks Book.title env books query ↔
      b ∈ books.map Prod.snd ∧ (env.toLowerCase query).data <:+: (env.toLowerCase b.title).data) ∧
    (matchingBooks Book.author env books query).Sublist (books.map Prod.snd) ∧
    (matchingBooks Book.title env books query).Sublist (books.map Prod.snd) ∧
    (∀ other, env.toLowerCase other = env.toLowerCase query →
      getByAuthor env books other = getByAuthor env books query ∧
      getByTitle env books other = getByTitle env books query) := by
  have hA : getByAuthor env books query =
      if matchingBooks Book.author env books query = [] then
        ⟨404, .message "No books found by this author."⟩
      else ⟨200, .bookList (matchingBooks Book.author env books query)⟩ := by
    simp only [getByAuthor, loop_eq_matchingBooks Book.author]
    cases matchingBooks Book.author env books query <;> simp
  have hT : getByTitle env books query =
      if matchingBooks Book.title env books query = [] then
        ⟨404, .message "No books found with this title."⟩
      else ⟨200, .bookList (matchingBooks Book.title env books query)⟩ := by
    simp only [getByTitle, loop_eq_matchingBooks Book.title]
    cases matchingBooks Book.title env books query <;> simp
  refine ⟨hA, hT, ?_, ?_, ?_, ?_, List.filter_sublist _, List.filter_sublist _, ?_⟩
  · rw [hA]; split <;> simp_all
  · rw [hT]; split <;> simp_all
  · intro b; simp [matchingBooks, List.mem_filter]
  · intro b; simp [matchingBooks, List.mem_filter]
  · intro other h
    simp only [getByAuthor, getByTitle, h, and_self]

/-- C7, evaluated on the seed book: `austen` and `Austen` get the same reply. -/
theorem search_by_substring_witness :
    getByAuthor startEnv sampleBooks "Austen" = getByAuthor startEnv sampleBooks "austen" ∧
    getByTitle startEnv sampleBooks "Austen" = getByTitle startEnv sampleBooks "austen" :=
  (search_by_substring startEnv sampleBooks "austen").2.2.2.2.2.2.2.2 "Austen" (by decide)

/-! ### Own properties of a plain object -/

theorem lookup_cons_eq {α : Type} (key k : String) (v : α) (rest : List (String × α)) :
    List.lookup key ((k, v) :: rest) = if k = key then some v else List.lookup key rest := by
  by_cases h : k = key
  · subst h; simp [List.lookup]
  · have h2 : (key == k) = false := by simpa using fun e => h e.symm
    simp [List.lookup, h, h2]

theorem lookup_setProp_self {α : Type} (o : List (String × α)) (key : String) (v : α) :
    (setProp o key v).lookup key = some v := by
  induction o with
  | nil => simp [setProp, List.lookup]
  | cons e rest ih =>
    obtain ⟨k, w⟩ := e
    by_cases h : k = key
    · simp [setProp, h, lookup_cons_eq]
    · simp [setProp, h, lookup_cons_eq, ih]

theorem lookup_setProp_ne {α : Type} (o : List (String × α)) (key other : String) (v : α)
    (hne : other ≠ key) : (setProp o key v).lookup other = o.lookup other := by
  induction o with
  | nil => simp [setProp, lookup_cons_eq, hne.symm]
  | cons e rest ih =>
    obtain ⟨k, w⟩ := e
    by_cases h : k = key
    · subst h; simp [setProp, lookup_cons_eq, hne.symm]
    · simp [setProp, h, lookup_cons_eq, ih]

theorem setProp_setProp {α : Type} (o : List (String × α)) (key : String) (v w : α) :
    setProp (setProp o key v) key w = setProp o key w := by
  induction o with
  | nil => simp [setProp]
  | cons e rest ih =>
    obtain ⟨k, x⟩ := e
    by_cases h : k = key
    · simp [setProp, h]
    · simp [setProp, h, ih]

theorem setProp_of_lookup {α : Type} (o : List (String × α)) (key : String) (v : α)
    (h : o.lookup key = some v) : setProp o key v = o := by
  induction o with
  | nil => simp [List.lookup] at h
  | cons e rest ih =>
    obtain ⟨k, x⟩ := e
    rw [lookup_cons_eq] at h
    by_cases hk : k = key
    · simp [hk] at h; simp [setProp, hk, h]
    · simp [hk] at h; simp [setProp, hk, ih h]

theorem length_setProp {α : Type} (o : List (String × α)) (key : String) (v : α) :
    (setProp o key v).length = if (o.lookup key).isSome then o.length else o.length + 1 := by
  induction o with
  | nil => simp [setProp, List.lookup]
  | cons e rest ih =>
    obtain ⟨k, x⟩ := e
    by_cases hk : k = key
    · simp [setProp, hk, lookup_cons_eq]
    · rw [lookup_cons_eq, if_neg hk]
      simp only [setProp, hk, beq_iff_eq, if_false, List.length_cons, ih]
      split <;> rfl

theorem delProp_setProp {α : Type} (o : List (String × α)) (key : String) (v : α)
    (h : o.lookup key = none) : delProp (setProp o key v) key = o := by
  induction o with
  | nil => simp [setProp, delProp]
  | cons e rest ih =>
    obtain ⟨k, x⟩ := e
    rw [lookup_cons_eq] at h
    by_cases hk : k = key
    · simp [hk] at h
    · rw [if_neg hk] at h; simp [setProp, delProp, hk, ih h]

theorem delProp_of_lookup_none {α : Type} (o : List (String × α)) (key : String)
    (h : o.lookup key = none) : delProp o key = o := by
  induction o with
  | nil => simp [delProp]
  | cons e rest ih =>
    obtain ⟨k, x⟩ := e
    rw [lookup_cons_eq] at h
    by_cases hk : k = key
    · simp [hk] at h
    · rw [if_neg hk] at h; simp [delProp, hk, ih h]

theorem lookup_delProp_self {α : Type} (o : List (String × α)) (key : String)
    (hn : (o.map Prod.fst).Nodup) : (delProp o key).lookup key = none := by
  induction o with
  | nil => simp [delProp, List.lookup]
  | cons e rest ih =>
    obtain ⟨k, x⟩ := e
    simp only [List.map_cons, List.nodup_cons] at hn
    by_cases hk : k = key
    · subst hk
      simp only [delProp, beq_self_eq_true, if_true]
      rw [List.lookup_eq_none_iff]
      intro p hp
      have : p.1 ∈ rest.map Prod.fst := List.mem_map_of_mem _ hp
      simpa using fun e : k = p.1 => hn.1 (e ▸ this)
    · simp [delProp, hk, lookup_cons_eq, ih hn.2]

theorem lookup_delProp_ne {α : Type} (o : List (String × α)) (key other : String)
    (hne : other ≠ key) : (delProp o key).lookup other = o.lookup other := by
  induction o with
  | nil => simp [delProp]
  | cons e rest ih =>
    obtain ⟨k, x⟩ := e
    by_cases hk : k = key
    · subst hk; simp [delProp, lookup_cons_eq, hne.symm]
    · simp [delProp, hk, lookup_cons_eq, ih]

theorem keys_setProp {α : Type} (o : List (String × α)) (key : String) (v : α) :
    (setProp o key v).map Prod.fst =
      if (o.lookup key).isSome then o.map Prod.fst else o.map Prod.fst ++ [key] := by
  induction o with
  | nil => simp [setProp, List.lookup]
  | cons e rest ih =>
    obtain ⟨k, x⟩ := e
    by_cases hk : k = key
    · simp [setProp, hk, lookup_cons_eq]
    · rw [lookup_cons_eq, if_neg hk]
      simp only [setProp, hk, beq_iff_eq, if_false, List.map_cons, ih]
      split <;> rfl

theorem nodup_keys_setProp {α : Type} (o : List (String × α)) (key : String) (v : α)
    (hn : (o.map Prod.fst).Nodup) : ((setProp o key v).map Prod.fst).Nodup := by
  rw [keys_setProp]
  split
  · exact hn
  · next h =>
    have hnone : o.lookup key = none := by
      cases hl : o.lookup key with
      | none => rfl
      | some x => simp [hl] at h
    rw [List.lookup_eq_none_iff] at hnone
    rw [List.nodup_append]
    refine ⟨hn, by simp, ?_⟩
    intro a ha hb
    simp only [List.mem_singleton] at hb
    subst hb
    obtain ⟨e, he, rfl⟩ := List.mem_map.1 ha
    simpa using hnone e he

theorem mem_keys_setProp {α : Type} (o : List (String × α)) (key : String) (v : α) :
    key ∈ (setProp o key v).map Prod.fst := by
  have h := lookup_setProp_self o key v
  by_contra hc
  have : (setProp o key v).lookup key = none := by
    rw [List.lookup_eq_none_iff]
    intro e he
    have hm : e.1 ∈ (setProp o key v).map Prod.fst := List.mem_map_of_mem _ he
    simpa using fun eq : key = e.1 => hc (eq ▸ hm)
  rw [this] at h
  exact Option.noConfusion h

/-! ### Lookup by id -/

/-- The three cases of `GET /isbn/:isbn` and `GET /review/:isbn`: a key of the store gives
its book (its review mapping); an id that is neither a key nor a name found on
`Object.prototype` gives 404; an id that is no key but is found on `Object.prototype` gives
200. -/
theorem id_lookup_cases (env : JsEnv) (books : Books) (id : String) :
    (∀ b, books.lookup id = some b →
      getByIsbn env books id = ⟨200, .book b⟩ ∧
      getReviews env books id = ⟨200, .reviews b.reviews⟩) ∧
    (books.lookup id = none → env.inherits id = false →
      getByIsbn env books id = ⟨404, .message "Book not found with this ISBN."⟩ ∧
      getReviews env books id = ⟨404, .message "Book not found with this ISBN."⟩) ∧
    (books.lookup id = none → env.inherits id = true →
      getByIsbn env books id = ⟨200, .builtin id⟩ ∧
      getReviews env books id = ⟨200, .builtinReviews id⟩) := by
  refine ⟨?_, ?_, ?_⟩
  · intro b h; simp [getByIsbn, getReviews, getMember, h]
  · intro h hi; simp [getByIsbn, getReviews, getMember, h, hi]
  · intro h hi; simp [getByIsbn, getReviews, getMember, h, hi]

/-- C8 (code evaluated at the failing input): `hasOwnProperty` is not a key of the store,
yet `GET /isbn/hasOwnProperty` and `GET /review/hasOwnProperty` are answered 200, not 404;
a key of the store and an ordinary absent id behave as claimed. -/
theorem id_lookup_reaches_builtin :
    sampleBooks.lookup "hasOwnProperty" = none ∧
    getByIsbn startEnv sampleBooks "hasOwnProperty" = ⟨200, .builtin "hasOwnProperty"⟩ ∧
    getReviews startEnv sampleBooks "hasOwnProperty" =
      ⟨200, .builtinReviews "hasOwnProperty"⟩ ∧
    getByIsbn startEnv sampleBooks "8" =
      ⟨200, .book ⟨"Jane Austen", "Pride and Prejudice", ⟨[], none⟩⟩⟩ ∧
    getByIsbn startEnv sampleBooks "999" = ⟨404, .message "Book not found with this ISBN."⟩ := by
  decide

/-! ### Reviews -/

/-- The cases of `PUT /customer/auth/review/:isbn` on a logged-in session, for an id that is
a key of the store or is not found at all, and a username other than `__proto__`. -/
theorem putReview_cases (env : JsEnv) (books : Books) (session : Session) (a : Authorization)
    (isbn : String) (review : Option String) (timestamp : String)
    (hs : session.authorization = some a) :
    (isFalsy review = true →
      putReview env books session isbn review timestamp =
        some (books, ⟨400, .message "Review text is required to add or modify a review."⟩)) ∧
    (∀ text, review = some text → text ≠ "" → books.lookup isbn = none →
      env.inherits isbn = false →
      putReview env books session isbn review timestamp =
        some (books, ⟨404, .message "Book not found."⟩)) ∧
    (∀ text book, review = some text → text ≠ "" → books.lookup isbn = some book →
      a.username ≠ "__proto__" →
      putReview env books session isbn review timestamp =
        some (setProp books isbn
            { book with reviews :=
                ⟨setProp book.reviews.own a.username ⟨text, timestamp⟩, book.reviews.proto⟩ },
          ⟨200, .reviewSaved
            ("Review for ISBN " ++ isbn ++ " by " ++ a.username ++ " successfully added/modified.")
            ⟨text, timestamp⟩⟩)) := by
  refine ⟨?_, ?_, ?_⟩
  · intro h; simp [putReview, hs, h]
  · rintro text rfl ht hb hi
    simp [putReview, hs, isFalsy, ht, getMember, hb, hi]
  · rintro text book rfl ht hb hu
    simp [putReview, hs, isFalsy, ht, getMember, hb, Reviews.set, hu]

/-- Two upserts by the same user (not `__proto__`) on a book of the store leave the store as
the second upsert alone would: the entry is overwritten, not duplicated. -/
theorem putReview_twice (env : JsEnv) (books : Books) (session : Session) (a : Authorization)
    (isbn first second t1 t2 : String) (book : Book)
    (hs : session.authorization = some a) (h1 : first ≠ "") (h2 : second ≠ "")
    (hb : books.lookup isbn = some book) (hu : a.username ≠ "__proto__") :
    (putReview env books session isbn (some first) t1).bind
        (fun r => putReview env r.1 session isbn (some second) t2) =
      putReview env books session isbn (some second) t2 := by
  rw [(putReview_cases env books session a isbn (some first) t1 hs).2.2 first book rfl h1 hb hu,
    (putReview_cases env books session a isbn (some second) t2 hs).2.2 second book rfl h2 hb hu]
  simp only [Option.some_bind]
  rw [(putReview_cases env _ session a isbn (some second) t2 hs).2.2 second _ rfl h2
    (lookup_setProp_self books isbn _) hu]
  simp [setProp_setProp]

/-- After a successful upsert by a user (not `__proto__`) on a book of the store whose
review mapping has distinct keys, the book is still found under its id with author and
title unchanged, and its mapping holds exactly one entry for the user, carrying the new
text. -/
theorem putReview_entry (env : JsEnv) (books : Books) (session : Session) (a : Authorization)
    (isbn text ts : String) (book : Book)
    (hs : session.authorization = some a) (ht : text ≠ "")
    (hb : books.lookup isbn = some book) (hu : a.username ≠ "__proto__")
    (hn : (book.reviews.own.map Prod.fst).Nodup) :
    ∃ books2 reply book2,
      putReview env books session isbn (some text) ts = some (books2, reply) ∧
      reply.status = 200 ∧ books2.lookup isbn = some book2 ∧
      book2.author = book.author ∧ book2.title = book.title ∧
      book2.reviews.own.lookup a.username = some ⟨text, ts⟩ ∧
      (book2.reviews.own.map Prod.fst).count a.username = 1 := by
  refine ⟨_, _, _,
    (putReview_cases env books session a isbn (some text) ts hs).2.2 text book rfl ht hb hu,
    rfl, lookup_setProp_self books isbn _, rfl, rfl, lookup_setProp_self _ _ _, ?_⟩
  exact List.count_eq_one_of_mem (nodup_keys_setProp _ _ _ hn) (mem_keys_setProp _ _ _)

/-- C9 (code evaluated at the failing inputs): `hasOwnProperty` is not a key of the store,
yet an upsert on it is answered 200, not 404; and an upsert by the user `__proto__` on book
8 is answered 200 while the book's review mapping still holds no entry at all. -/
theorem put_review_misses_cases :
    sampleBooks.lookup "hasOwnProperty" = none ∧
    putReview startEnv sampleBooks (sessionOf "alice") "hasOwnProperty" (some "nice") "t0" =
      some (sampleBooks, ⟨200, .reviewSaved
        "Review for ISBN hasOwnProperty by alice successfully added/modified."
        ⟨"nice", "t0"⟩⟩) ∧
    putReview startEnv sampleBooks (sessionOf "__proto__") "8" (some "nice") "t0" =
      some ([("8", ⟨"Jane Austen", "Pride and Prejudice", ⟨[], some ⟨"nice", "t0"⟩⟩⟩)],
        ⟨200, .reviewSaved "Review for ISBN 8 by __proto__ successfully added/modified."
          ⟨"nice", "t0"⟩⟩) := by
  decide

/-- The cases of `DELETE /customer/auth/review/:isbn` on a logged-in session for a book of
the store: 404 when `reviews[username]` is falsy, and removal of the own entry when there
is one. -/
theorem deleteReview_cases (env : JsEnv) (books : Books) (session : Session)
    (a : Authorization) (isbn : String) (book : Book)
    (hs : session.authorization = some a) (hb : books.lookup isbn = some book) :
    (book.reviews.has env a.username = false →
      deleteReview env books session isbn =
        some (books, ⟨404, .message "No review found from this user for this book."⟩)) ∧
    (∀ r, book.reviews.own.lookup a.username = some r →
      deleteReview env books session isbn =
        some (setProp books isbn
            { book with reviews := ⟨delProp book.reviews.own a.username, book.reviews.proto⟩ },
          ⟨200, .message
            ("Review for ISBN " ++ isbn ++ " by " ++ a.username ++ " successfully deleted.")⟩)) := by
  constructor
  · intro h; simp [deleteReview, hs, getMember, hb, h]
  · intro r h
    have hh : book.reviews.has env a.username = true := by simp [Reviews.has, h]
    simp [deleteReview, hs, getMember, hb, hh, Reviews.delete]

/-- An upsert by a user (not `__proto__`) with no entry on a book of the store, followed
by that user's delete, gives back the store as it was. -/
theorem put_then_delete_restores (env : JsEnv) (books : Books) (session : Session)
    (a : Authorization) (isbn text ts : String) (book : Book)
    (hs : session.authorization = some a) (ht : text ≠ "")
    (hb : books.lookup isbn = some book) (hu : a.username ≠ "__proto__")
    (hnone : book.reviews.own.lookup a.username = none) :
    (putReview env books session isbn (some text) ts).bind
        (fun r => deleteReview env r.1 session isbn) =
      some (books, ⟨200, .message
        ("Review for ISBN " ++ isbn ++ " by " ++ a.username ++ " successfully deleted.")⟩) := by
  rw [(putReview_cases env books session a isbn (some text) ts hs).2.2 text book rfl ht hb hu]
  simp only [Option.some_bind]
  rw [(deleteReview_cases env _ session a isbn _ hs (lookup_setProp_self books isbn _)).2
    ⟨text, ts⟩ (lookup_setProp_self _ _ _)]
  simp only [setProp_setProp, delProp_setProp _ _ _ hnone]
  rw [setProp_of_lookup books isbn _ hb]

/-- C10 (code evaluated at the failing inputs): book 8 holds no review, yet the delete by
the user `constructor` is answered 200, not 404; and after an upsert and a delete by the
user `__proto__`, both answered 200, the book's review mapping is not the original one. -/
theorem delete_review_misses_cases :
    sampleBooks.lookup "8" = some ⟨"Jane Austen", "Pride and Prejudice", ⟨[], none⟩⟩ ∧
    deleteReview startEnv sampleBooks (sessionOf "constructor") "8" =
      some (sampleBooks,
        ⟨200, .message "Review for ISBN 8 by constructor successfully deleted."⟩) ∧
    (putReview startEnv sampleBooks (sessionOf "__proto__") "8" (some "nice") "t0").bind
        (fun r => deleteReview startEnv r.1 (sessionOf "__proto__") "8") =
      some ([("8", ⟨"Jane Austen", "Pride and Prejudice", ⟨[], some ⟨"nice", "t0"⟩⟩⟩)],
        ⟨200, .message "Review for ISBN 8 by __proto__ successfully deleted."⟩) := by
  decide

/-! ### Frame of the store operations -/

/-- The store a review handler leaves is the old one, or the old one with the book found
under `isbn` replaced by a copy whose `reviews` alone may differ. -/
theorem putReview_store (env : JsEnv) (books books2 : Books) (session : Session)
    (a : Authorization) (isbn : String) (review : Option String) (timestamp : String)
    (reply : Response) (hs : session.authorization = some a)
    (h : putReview env books session isbn review timestamp = some (books2, reply)) :
    books2 = books ∨
    ∃ book saved, books.lookup isbn = some book ∧
      books2 = setProp books isbn { book with reviews := book.reviews.set a.username saved } := by
  unfold putReview at h
  simp only [hs] at h
  split at h
  · left; simp only [Option.some.injEq, Prod.mk.injEq] at h; exact h.1.symm
  · cases hl : books.lookup isbn with
    | none =>
      left
      by_cases hi : env.inherits isbn = true
      · simp only [getMember, hl, hi, if_true, Option.some.injEq, Prod.mk.injEq] at h
        exact h.1.symm
      · simp only [getMember, hl, hi, Bool.false_eq_true, if_false, Option.some.injEq,
          Prod.mk.injEq] at h
        exact h.1.symm
    | some book =>
      right
      simp only [getMember, hl, Option.some.injEq, Prod.mk.injEq] at h
      exact ⟨book, _, rfl, h.1.symm⟩

theorem deleteReview_store (env : JsEnv) (books books2 : Books) (session : Session)
    (a : Authorization) (isbn : String) (reply : Response)
    (hs : session.authorization = some a)
    (h : deleteReview env books session isbn = some (books2, reply)) :
    books2 = books ∨
    ∃ book, books.lookup isbn = some book ∧
      books2 = setProp books isbn { book with reviews := book.reviews.delete a.username } := by
  unfold deleteReview at h
  simp only [hs] at h
  cases hl : books.lookup isbn with
  | none =>
    left
    by_cases hi : env.inherits isbn = true
    · simp only [getMember, hl, hi, if_true] at h
      split at h <;>
        (simp only [Option.some.injEq, Prod.mk.injEq] at h; exact h.1.symm)
    · simp only [getMember, hl, hi, Bool.false_eq_true, if_false, Option.some.injEq,
        Prod.mk.injEq] at h
      exact h.1.symm
  | some book =>
    simp only [getMember, hl] at h
    split at h
    · right
      simp only [Option.some.injEq, Prod.mk.injEq] at h
      exact ⟨book, rfl, h.1.symm⟩
    · left
      simp only [Option.some.injEq, Prod.mk.injEq] at h
      exact h.1.symm

theorem keys_setProp_of_lookup {α : Type} (o : List (String × α)) (key : String) (v w : α)
    (h : o.lookup key = some w) : (setProp o key v).map Prod.fst = o.map Prod.fst := by
  rw [keys_setProp, h]; rfl

theorem own_lookup_set (r : Reviews) (u v : String) (saved : Review) (hne : v ≠ u) :
    (r.set u saved).own.lookup v = r.own.lookup v := by
  unfold Reviews.set
  split
  · rfl
  · exact lookup_setProp_ne r.own u v saved hne

theorem proto_set (r : Reviews) (u : String) (saved : Review) (hne : u ≠ "__proto__") :
    (r.set u saved).proto = r.proto := by
  simp [Reviews.set, hne]

theorem own_lookup_delete (r : Reviews) (u v : String) (hne : v ≠ u) :
    (r.delete u).own.lookup v = r.own.lookup v :=
  lookup_delProp_ne r.own u v hne

theorem frameHolds_refl (w : Option (String × String)) (books : Books) :
    FrameHolds w books books :=
  ⟨rfl, fun _ => rfl, fun _ _ => rfl, fun _ b hb => ⟨b, hb, rfl, rfl, fun _ _ => rfl, fun _ => rfl⟩⟩

theorem frameHolds_setProp (books : Books) (isbn u : String) (book book2 : Book)
    (hb : books.lookup isbn = some book) (ha : book2.author = book.author)
    (ht : book2.title = book.title)
    (hown : ∀ v, v ≠ u → book2.reviews.own.lookup v = book.reviews.own.lookup v)
    (hproto : u ≠ "__proto__" → book2.reviews.proto = book.reviews.proto) :
    FrameHolds (some (isbn, u)) books (setProp books isbn book2) := by
  refine ⟨keys_setProp_of_lookup books isbn book2 book hb, fun h => by simp at h, ?_, ?_⟩
  · intro id hid
    have hne : id ≠ isbn := fun e => hid u (by rw [e])
    exact lookup_setProp_ne books isbn id book2 hne
  · intro id b hl
    by_cases hid : id = isbn
    · subst hid
      rw [hb] at hl
      cases hl
      refine ⟨book2, lookup_setProp_self books id book2, ha, ht, ?_, ?_⟩
      · intro v hv
        exact hown v (fun e => hv (by rw [e]))
      · intro hp
        exact hproto (fun e => hp (by rw [e]))
    · refine ⟨b, ?_, rfl, rfl, fun _ _ => rfl, fun _ => rfl⟩
      rw [lookup_setProp_ne books isbn id book2 hid]
      exact hl

/-- The frame of the store operations: whatever the call, the ids of the store stay as they
are, in the same order; a `GET` leaves the store as it is; an upsert or a delete by the
session's user `u` on book `id` leaves every other book as it is and, on every book, the
author, the title and the entry of every user other than `u`; the prototype of a review
mapping changes only under an upsert by the user `__proto__`. -/
theorem store_frame (env : JsEnv) (books books2 : Books) (op : StoreOp) (reply : Response)
    (h : op.apply env books = some (books2, reply)) :
    FrameHolds op.writes books books2 := by
  cases op with
  | getAll =>
    simp only [StoreOp.apply, Option.some.injEq, Prod.mk.injEq] at h
    rw [← h.1]; exact frameHolds_refl _ _
  | getByIsbn isbn =>
    simp only [StoreOp.apply, Option.some.injEq, Prod.mk.injEq] at h
    rw [← h.1]; exact frameHolds_refl _ _
  | getByAuthor author =>
    simp only [StoreOp.apply, Option.some.injEq, Prod.mk.injEq] at h
    rw [← h.1]; exact frameHolds_refl _ _
  | getByTitle title =>
    simp only [StoreOp.apply, Option.some.injEq, Prod.mk.injEq] at h
    rw [← h.1]; exact frameHolds_refl _ _
  | getReviews isbn =>
    simp only [StoreOp.apply, Option.some.injEq, Prod.mk.injEq] at h
    rw [← h.1]; exact frameHolds_refl _ _
  | putReview session isbn review timestamp =>
    simp only [StoreOp.apply] at h
    cases hs : session.authorization with
    | none => simp [putReview, hs] at h
    | some a =>
      simp only [StoreOp.writes, hs, Option.map_some']
      rcases putReview_store env books books2 session a isbn review timestamp reply hs h with
        e | ⟨book, saved, hb, e⟩
      · rw [e]; exact frameHolds_refl _ _
      · rw [e]
        exact frameHolds_setProp books isbn a.username book _ hb rfl rfl
          (fun v hv => own_lookup_set book.reviews a.username v saved hv)
          (fun hp => proto_set book.reviews a.username saved hp)
  | deleteReview session isbn =>
    simp only [StoreOp.apply] at h
    cases hs : session.authorization with
    | none => simp [deleteReview, hs] at h
    | some a =>
      simp only [StoreOp.writes, hs, Option.map_some']
      rcases deleteReview_store env books books2 session a isbn reply hs h with
        e | ⟨book, hb, e⟩
      · rw [e]; exact frameHolds_refl _ _
      · rw [e]
        exact frameHolds_setProp books isbn a.username book _ hb rfl rfl
          (fun v hv => own_lookup_delete book.reviews a.username v hv)
          (fun _ => rfl)

/-- C11 (code evaluated at the failing input): on book 8, which holds no review, the delete
by the user `text` is answered 404; the upsert by the user `__proto__` is answered 200 and
leaves the mapping without any entry but with a new prototype; from then on the read
`reviews[username]` is truthy for the other user `text`, whose delete is now answered 200:
the upsert by one user has changed what the handlers see for another. -/
theorem proto_upsert_reaches_other_user :
    deleteReview startEnv sampleBooks (sessionOf "text") "8" =
      some (sampleBooks, ⟨404, .message "No review found from this user for this book."⟩) ∧
    putReview startEnv sampleBooks (sessionOf "__proto__") "8" (some "nice") "t0" =
      some (sampleBooksAfterProto,
        ⟨200, .reviewSaved "Review for ISBN 8 by __proto__ successfully added/modified."
          ⟨"nice", "t0"⟩⟩) ∧
    Reviews.has startEnv ⟨[], none⟩ "text" = false ∧
    Reviews.has startEnv ⟨[], some ⟨"nice", "t0"⟩⟩ "text" = true ∧
    deleteReview startEnv sampleBooksAfterProto (sessionOf "text") "8" =
      some (sampleBooksAfterProto,
        ⟨200, .message "Review for ISBN 8 by text successfully deleted."⟩) := by
  decide

end BookReviews
